import Mathlib

/-!
Shallow embedding of `root_dash_lib/data_viewer.py` from the root-dash
repository: the tick-range heuristic `get_tick_range_and_spacing`, the
chart renderer `DataViewer.lineplot`, and the table viewer `DataViewer.write`.

Numeric values carried by pandas objects are modelled as exact rationals.
A floating-point NaN produced by numpy (log10 of a non-positive argument,
whose floor is then fed to `np.round`) is modelled as `Option.none`.
Python exceptions are modelled with `Except`.
-/

/-- Python exceptions raised by the embedded code paths. -/
inductive PyError where
  | keyError (key : String)
  | valueError (msg : String)
  | indexError
  deriving DecidableEq, Repr

/-- Embedding of `ndarray.max()` (used as `total.values.max()` in the source):
the maximum of the stored values; numpy raises a `ValueError` on an empty
array (zero-size reduction). -/
def ndarrayMax : List ℚ → Except PyError ℚ
  | [] => .error (.valueError "zero-size array to reduction operation maximum")
  | x :: xs => .ok (xs.foldl max x)

/-- Round half to even on rationals: the rounding mode of `np.round`. -/
def roundHalfEven (q : ℚ) : ℤ :=
  if q - ⌊q⌋ < 1/2 then ⌊q⌋
  else if 1/2 < q - ⌊q⌋ then ⌊q⌋ + 1
  else if ⌊q⌋ % 2 = 0 then ⌊q⌋ else ⌊q⌋ + 1

/-- Embedding of `np.round(x, decimals)` on exact rationals: scale by
`10 ^ decimals`, round half to even, scale back. -/
def npRound (x : ℚ) (decimals : ℤ) : ℚ :=
  (roundHalfEven (x * 10 ^ decimals) : ℚ) / 10 ^ decimals

/-- Embedding of `get_tick_range_and_spacing(total, cumulative, ax_frac)`
(data_viewer.py, lines 252-275).  `total` holds the values of the pandas
Series argument.

In the cumulative branch the source computes `total.sum().max()`; the sum of
a Series is a scalar and `.max()` of a scalar is itself, so this is the sum
of the values (0 for an empty Series).  In the other branch
`total.values.max()` raises a `ValueError` on an empty Series.

The tick spacing is
`np.round(u, -np.floor(np.log10(u)).astype(int))` for
`u = ax_frac * ymax`.  For `u > 0` the inner floor-log10 is `Int.log 10 u`.
For `u ≤ 0`, numpy emits `-inf`/NaN from `np.log10` (a RuntimeWarning, not
an exception) and `np.round` then produces NaN; that NaN result is modelled
as `none`. -/
def get_tick_range_and_spacing (total : List ℚ) (cumulative : Bool)
    (ax_frac : ℚ := 0.1) : Except PyError (ℚ × Option ℚ) :=
  match (if cumulative then .ok total.sum else ndarrayMax total :
      Except PyError ℚ) with
  | .error e => .error e
  | .ok m =>
    let ymax : ℚ := m * 1.05
    let unrounded_tick_spacing : ℚ := ax_frac * ymax
    let tick_spacing : Option ℚ :=
      if 0 < unrounded_tick_spacing then
        some (npRound unrounded_tick_spacing
          (-(Int.log 10 unrounded_tick_spacing)))
      else
        none
    .ok (ymax, tick_spacing)

/-- Written after the wording of the spec, for comparison with the source
computation: the tick spacing is `axis_fraction * y_max` rounded to
`-floor(log10(axis_fraction * y_max))` decimal digits. -/
def spec_tick_spacing (axis_fraction y_max : ℚ) : ℚ :=
  npRound (axis_fraction * y_max) (-(Int.log 10 (axis_fraction * y_max)))

/-- A left fold of `max` produces an element of the list. -/
theorem foldl_max_mem (x : ℚ) (xs : List ℚ) : xs.foldl max x ∈ x :: xs := by
  induction xs generalizing x with
  | nil => simp
  | cons y ys ih =>
    simp only [List.foldl_cons]
    have h := ih (max x y)
    rw [List.mem_cons] at h
    rcases h with h | h
    · rw [h]
      rcases max_choice x y with hm | hm <;> rw [hm] <;> simp
    · exact List.mem_cons_of_mem _ (List.mem_cons_of_mem _ h)

/-- A left fold of `max` bounds every element of the list. -/
theorem le_foldl_max (x : ℚ) (xs : List ℚ) :
    ∀ y ∈ x :: xs, y ≤ xs.foldl max x := by
  induction xs generalizing x with
  | nil =>
    intro y hy
    rw [List.mem_cons] at hy
    rcases hy with rfl | h
    · simp
    · simp at h
  | cons z zs ih =>
    intro y hy
    simp only [List.foldl_cons]
    rw [List.mem_cons, List.mem_cons] at hy
    rcases hy with rfl | rfl | h
    · exact le_trans (le_max_left y z) (ih (max y z) _ (List.mem_cons_self _ _))
    · exact le_trans (le_max_right x y) (ih (max x y) _ (List.mem_cons_self _ _))
    · exact ih (max x z) y (List.mem_cons_of_mem _ h)

/-- Reduction equation: the cumulative branch of the tick-range computation. -/
theorem get_ok_cumulative (total : List ℚ) (af : ℚ) :
    get_tick_range_and_spacing total true af =
      .ok (total.sum * 1.05,
        if 0 < af * (total.sum * 1.05) then
          some (npRound (af * (total.sum * 1.05))
            (-(Int.log 10 (af * (total.sum * 1.05)))))
        else none) := rfl

/-- Reduction equation: the non-cumulative branch on a non-empty series. -/
theorem get_ok_cons (x : ℚ) (xs : List ℚ) (af : ℚ) :
    get_tick_range_and_spacing (x :: xs) false af =
      .ok (xs.foldl max x * 1.05,
        if 0 < af * (xs.foldl max x * 1.05) then
          some (npRound (af * (xs.foldl max x * 1.05))
            (-(Int.log 10 (af * (xs.foldl max x * 1.05)))))
        else none) := rfl

/-- Reduction equation: the non-cumulative branch on an empty series raises. -/
theorem get_nil_false (af : ℚ) :
    get_tick_range_and_spacing [] false af =
      .error (.valueError "zero-size array to reduction operation maximum") :=
  rfl

/-- Uniqueness characterisation of the integer floor of log base 10. -/
theorem log10_eq_of_bounds (u : ℚ) (k : ℤ) (hu : 0 < u)
    (h1 : (10 : ℚ) ^ k ≤ u) (h2 : u < (10 : ℚ) ^ (k + 1)) :
    Int.log 10 u = k := by
  have hb : 1 < (10 : ℕ) := by norm_num
  have hc : ((10 : ℕ) : ℚ) = (10 : ℚ) := by norm_num
  have hle : k ≤ Int.log 10 u := by
    rw [← Int.zpow_le_iff_le_log hb hu, hc]
    exact h1
  have hlt : Int.log 10 u < k + 1 := by
    rw [← Int.lt_zpow_iff_log_lt hb hu, hc]
    exact h2
  omega

/-- Round half to even never rounds below the floor. -/
theorem floor_le_roundHalfEven (q : ℚ) : ⌊q⌋ ≤ roundHalfEven q := by
  unfold roundHalfEven
  split_ifs <;> omega

/-- The nice-number rounding used for the tick spacing is positive on
positive input: scaling a positive `u` by `10 ^ (-(Int.log 10 u))` lands in
`[1, 10)`, and rounding cannot fall below `1`. -/
theorem npRound_log_pos (u : ℚ) (hu : 0 < u) :
    0 < npRound u (-(Int.log 10 u)) := by
  have hb : 1 < (10 : ℕ) := by norm_num
  have hc : ((10 : ℕ) : ℚ) = (10 : ℚ) := by norm_num
  have h1 : (10 : ℚ) ^ Int.log 10 u ≤ u := by
    have h := Int.zpow_log_le_self hb hu
    rwa [hc] at h
  have hpow : (0 : ℚ) < (10 : ℚ) ^ (-(Int.log 10 u)) := by positivity
  have hscaled : (1 : ℚ) ≤ u * (10 : ℚ) ^ (-(Int.log 10 u)) := by
    have h10 : (10 : ℚ) ≠ 0 := by norm_num
    have hmul : (10 : ℚ) ^ Int.log 10 u * (10 : ℚ) ^ (-(Int.log 10 u)) = 1 := by
      rw [← zpow_add₀ h10]
      simp
    calc (1 : ℚ) = (10 : ℚ) ^ Int.log 10 u * (10 : ℚ) ^ (-(Int.log 10 u)) :=
        hmul.symm
      _ ≤ u * (10 : ℚ) ^ (-(Int.log 10 u)) :=
        mul_le_mul_of_nonneg_right h1 hpow.le
  have hfl : (1 : ℤ) ≤ ⌊u * (10 : ℚ) ^ (-(Int.log 10 u))⌋ := by
    rw [Int.le_floor]
    exact_mod_cast hscaled
  have hrd : (0 : ℤ) < roundHalfEven (u * (10 : ℚ) ^ (-(Int.log 10 u))) := by
    have h := floor_le_roundHalfEven (u * (10 : ℚ) ^ (-(Int.log 10 u)))
    omega
  unfold npRound
  refine div_pos ?_ hpow
  exact_mod_cast hrd

/-- C1: for every non-empty totals series, `get_tick_range_and_spacing`
succeeds and returns `y_max = sum(totals) * 1.05` when `cumulative` is true,
and `y_max = max(totals) * 1.05` when `cumulative` is false (the factor `m`
is a genuine maximum: an element of the list bounding every element). -/
theorem tick_range_ymax (total : List ℚ) (h : total ≠ []) (cumulative : Bool) :
    ∃ p : ℚ × Option ℚ, get_tick_range_and_spacing total cumulative 0.1 = .ok p ∧
      (cumulative = true → p.1 = total.sum * 1.05) ∧
      (cumulative = false →
        ∃ m, m ∈ total ∧ (∀ y ∈ total, y ≤ m) ∧ p.1 = m * 1.05) := by
  cases cumulative with
  | true =>
    refine ⟨_, rfl, fun _ => rfl, fun hc => by simp at hc⟩
  | false =>
    match total, h with
    | x :: xs, _ =>
      refine ⟨_, rfl, fun hc => by simp at hc, fun _ => ?_⟩
      exact ⟨xs.foldl max x, foldl_max_mem x xs, le_foldl_max x xs, rfl⟩

/-- Witness for C1 at the concrete input `[2, 5]`, `cumulative = false`. -/
theorem tick_range_ymax_witness :
    ([2, 5] : List ℚ) ≠ [] ∧
      ∃ p : ℚ × Option ℚ,
        get_tick_range_and_spacing [2, 5] false 0.1 = .ok p ∧
        (false = true → p.1 = ([2, 5] : List ℚ).sum * 1.05) ∧
        (false = false →
          ∃ m, m ∈ ([2, 5] : List ℚ) ∧ (∀ y ∈ ([2, 5] : List ℚ), y ≤ m) ∧
            p.1 = m * 1.05) :=
  ⟨by decide, tick_range_ymax [2, 5] (by decide) false⟩

/-- C2: whenever the computation succeeds with `y_max > 0`, the returned
tick spacing is `axis_fraction * y_max` rounded to
`-floor(log10(axis_fraction * y_max))` decimal digits (the spec formula);
concretely `totals = [962]`, `cumulative = false` yields spacing `100`; and
for every non-empty all-positive totals series with `cumulative = false` the
spacing is strictly positive. -/
theorem tick_range_spacing (total : List ℚ) (h : total ≠ []) :
    (∀ (cumulative : Bool) (p : ℚ × Option ℚ),
        get_tick_range_and_spacing total cumulative 0.1 = .ok p → 0 < p.1 →
        p.2 = some (spec_tick_spacing 0.1 p.1)) ∧
    get_tick_range_and_spacing [962] false 0.1 = .ok (1010.1, some 100) ∧
    ((∀ y ∈ total, 0 < y) →
      ∃ p : ℚ × Option ℚ,
        get_tick_range_and_spacing total false 0.1 = .ok p ∧
        ∃ ts, p.2 = some ts ∧ 0 < ts) := by
  refine ⟨?_, ?_, ?_⟩
  · intro cumulative p hok hp
    cases cumulative with
    | false =>
      cases total with
      | nil => rw [get_nil_false] at hok; cases hok
      | cons x xs =>
        rw [get_ok_cons] at hok
        injection hok with hq
        subst hq
        have hu : 0 < (0.1 : ℚ) * (xs.foldl max x * 1.05) :=
          mul_pos (by norm_num) hp
        rw [if_pos hu]
        rfl
    | true =>
      rw [get_ok_cumulative] at hok
      injection hok with hq
      subst hq
      have hu : 0 < (0.1 : ℚ) * (total.sum * 1.05) :=
        mul_pos (by norm_num) hp
      rw [if_pos hu]
      rfl
  · have hlog : Int.log 10 ((10101 : ℚ) / 100) = 2 :=
      log10_eq_of_bounds _ 2 (by norm_num) (by norm_num) (by norm_num)
    have hfl : ⌊(10101 : ℚ) / 10000⌋ = 1 := by
      rw [Int.floor_eq_iff]
      norm_num
    have hround : roundHalfEven ((10101 : ℚ) / 10000) = 1 := by
      unfold roundHalfEven
      rw [hfl]
      norm_num
    have hnp : npRound ((10101 : ℚ) / 100) (-(2 : ℤ)) = 100 := by
      unfold npRound
      rw [show ((10 : ℚ) ^ (-(2 : ℤ)) = 1 / 100) by norm_num,
        show ((10101 : ℚ) / 100 * (1 / 100) = 10101 / 10000) by norm_num,
        hround]
      norm_num
    rw [get_ok_cons]
    simp only [List.foldl_nil]
    rw [show ((0.1 : ℚ) * (962 * 1.05) = 10101 / 100) by norm_num, hlog, hnp,
      if_pos (by norm_num : (0 : ℚ) < 10101 / 100)]
    norm_num
  · intro hpos
    obtain ⟨x, xs, rfl⟩ : ∃ x xs, total = x :: xs := by
      cases total with
      | nil => exact absurd rfl h
      | cons a l => exact ⟨a, l, rfl⟩
    have hx : 0 < x := hpos x (List.mem_cons_self _ _)
    have hM : 0 < xs.foldl max x :=
      lt_of_lt_of_le hx (le_foldl_max x xs x (List.mem_cons_self _ _))
    have hy : 0 < xs.foldl max x * (1.05 : ℚ) := mul_pos hM (by norm_num)
    have hu : 0 < (0.1 : ℚ) * (xs.foldl max x * 1.05) :=
      mul_pos (by norm_num) hy
    refine ⟨_, get_ok_cons x xs 0.1, ?_⟩
    rw [if_pos hu]
    exact ⟨_, rfl, npRound_log_pos _ hu⟩

/-- Witness for C2 at the concrete input `[962]`, exercising both the
concrete-spacing conjunct and the positivity conjunct. -/
theorem tick_range_spacing_witness :
    ([962] : List ℚ) ≠ [] ∧
    get_tick_range_and_spacing [962] false 0.1 = .ok (1010.1, some 100) ∧
    (∀ y ∈ ([962] : List ℚ), 0 < y) ∧
    (∃ p : ℚ × Option ℚ,
      get_tick_range_and_spacing [962] false 0.1 = .ok p ∧
      ∃ ts, p.2 = some ts ∧ 0 < ts) :=
  ⟨by decide, (tick_range_spacing [962] (by decide)).2.1, by decide,
    (tick_range_spacing [962] (by decide)).2.2 (by decide)⟩

/-- C3 counterexample: the code does not raise on a computed `y_max ≤ 0`
(totals `[0]`, not cumulative, returns `y_max = 0` with a NaN spacing), and
does not raise on an empty totals series in the cumulative branch (returns
`y_max = 0` with a NaN spacing); in both cases a result is returned. -/
theorem tick_range_domain_counterexample :
    get_tick_range_and_spacing [0] false 0.1 = .ok (0, none) ∧
    get_tick_range_and_spacing [] true 0.1 = .ok (0, none) := by
  constructor
  · rw [get_ok_cons]
    norm_num
  · rw [get_ok_cumulative]
    norm_num

/-- C3 amended: an error (numpy `ValueError` from the zero-size `max`
reduction) is raised only when the totals series is empty and `cumulative`
is false; in the cumulative branch the function always returns a result,
and whenever the computed `y_max` is `≤ 0` it returns that `y_max` with a
NaN tick spacing instead of raising. -/
theorem tick_range_error_behavior (total : List ℚ) (cumulative : Bool) :
    (cumulative = false → total = [] →
      get_tick_range_and_spacing total cumulative 0.1 =
        .error (.valueError "zero-size array to reduction operation maximum")) ∧
    (cumulative = true →
      ∃ p, get_tick_range_and_spacing total cumulative 0.1 = .ok p) ∧
    (∀ p, get_tick_range_and_spacing total cumulative 0.1 = .ok p →
      p.1 ≤ 0 → p.2 = none) := by
  refine ⟨?_, ?_, ?_⟩
  · rintro rfl rfl
    rfl
  · rintro rfl
    exact ⟨_, get_ok_cumulative total 0.1⟩
  · intro p hok hp
    cases cumulative with
    | false =>
      cases total with
      | nil => rw [get_nil_false] at hok; cases hok
      | cons x xs =>
        rw [get_ok_cons] at hok
        injection hok with hq
        subst hq
        have hp' : xs.foldl max x * (1.05 : ℚ) ≤ 0 := hp
        have hu : ¬ (0 < (0.1 : ℚ) * (xs.foldl max x * 1.05)) := by nlinarith
        rw [if_neg hu]
    | true =>
      rw [get_ok_cumulative] at hok
      injection hok with hq
      subst hq
      have hp' : total.sum * (1.05 : ℚ) ≤ 0 := hp
      have hu : ¬ (0 < (0.1 : ℚ) * (total.sum * 1.05)) := by nlinarith
      rw [if_neg hu]

/-- Witness for the amended C3 at totals `[0]` with `cumulative = true`. -/
theorem tick_range_error_behavior_witness :
    get_tick_range_and_spacing [0] true 0.1 = .ok ((0 : ℚ), (none : Option ℚ)) ∧
    (((0 : ℚ), (none : Option ℚ)) : ℚ × Option ℚ).1 ≤ 0 ∧
    (((0 : ℚ), (none : Option ℚ)) : ℚ × Option ℚ).2 = none :=
  have hok : get_tick_range_and_spacing [0] true 0.1 =
      .ok ((0 : ℚ), (none : Option ℚ)) := by
    simp [get_ok_cumulative]
  ⟨hok, le_refl 0, (tick_range_error_behavior [0] true).2.2 _ hok (le_refl 0)⟩

/-- Association-list lookup with first match: pandas column access and the
data-dict access in `write` (keys are unique in those objects). -/
def assocFind {α : Type} : List (String × α) → String → Option α
  | [], _ => none
  | kv :: rest, k => if kv.1 = k then some kv.2 else assocFind rest k

/-- Python dict lookup for a dict built from a list of bindings in insertion
order: a later binding for the same key overrides an earlier one. -/
def dictLookup {α : Type} : List (String × α) → String → Option α
  | [], _ => none
  | kv :: rest, k =>
    match dictLookup rest k with
    | some v => some v
    | none => if kv.1 = k then some kv.2 else none

/-- A pandas dataframe as used by `lineplot`: the x-values are the index and
each named column is a category series. -/
structure DataFrame where
  index : List ℚ
  cols : List (String × List ℚ)
  deriving DecidableEq, Repr

/-- Column access `df[name]` (column names are unique in pandas). -/
def DataFrame.lookup (df : DataFrame) (c : String) : Option (List ℚ) :=
  assocFind df.cols c

/-- The ordered column names, `df.columns`. -/
def DataFrame.columns (df : DataFrame) : List String :=
  df.cols.map Prod.fst

/-- Running sums with accumulator: the tail-recursive core of `cumsum`. -/
def cumsumFrom (acc : ℚ) : List ℚ → List ℚ
  | [] => []
  | x :: xs => (acc + x) :: cumsumFrom (acc + x) xs

/-- Embedding of pandas `Series.cumsum()`: running sums, returned as a new
object (pandas never mutates the receiver here). -/
def seriesCumsum (l : List ℚ) : List ℚ := cumsumFrom 0 l

/-- Embedding of `DataFrame.cumsum(axis='rows')`: per-column running sums,
index unchanged; a new dataframe object. -/
def DataFrame.cumsum (df : DataFrame) : DataFrame :=
  ⟨df.index, df.cols.map fun c => (c.1, seriesCumsum c.2)⟩

/-- The ten hex colors of the default seaborn palette, as returned by
`sns.color_palette()`; `color_palette[i]` raises an `IndexError` for
`i ≥ 10`. -/
def sns_color_palette : List String :=
  ["#4C72B0", "#DD8452", "#55A868", "#C44E52", "#8172B3",
   "#937860", "#DA8BC3", "#8C8C8C", "#CCB974", "#64B5CD"]

/-- Step 2 of `lineplot` (lines 141-143): when no explicit map is given,
`category_colors = { key: color_palette[i] for i, key in enumerate(categories) }`;
indexing the palette out of range raises an `IndexError`. -/
def resolveColors (categories : List String)
    (category_colors : Option (List (String × String))) :
    Except PyError (List (String × String)) :=
  match category_colors with
  | some cc => .ok cc
  | none =>
    if categories.length ≤ sns_color_palette.length then
      .ok (categories.zip sns_color_palette)
    else
      .error .indexError

/-- The per-category drawing loop of `lineplot` (lines 150-169): for each
category in order, read the column (`df[category_j]`, `KeyError` if absent),
read its color from the dict (`KeyError` if absent), and draw line and
markers (matplotlib raises a `ValueError` when the y-series length differs
from the x length).  Returns the drawn series in order. -/
def drawSeries (df : DataFrame) (category_colors : List (String × String))
    (xs : List ℚ) : List String → Except PyError (List (String × List ℚ × String))
  | [] => .ok []
  | c :: cs =>
    match df.lookup c with
    | none => .error (.keyError c)
    | some ys =>
      match dictLookup category_colors c with
      | none => .error (.keyError c)
      | some col =>
        if ys.length = xs.length then
          match drawSeries df category_colors xs cs with
          | .error e => .error e
          | .ok rest => .ok ((c, ys, col) :: rest)
        else
          .error (.valueError "x and y must have same first dimension")

/-- The totals overlay (lines 189-205): matplotlib raises a `ValueError`
when the totals length differs from the x length. -/
def checkTotals (xs : List ℚ) : Option (List ℚ) → Except PyError Unit
  | none => .ok ()
  | some t =>
    if t.length = xs.length then .ok ()
    else .error (.valueError "x and y must have same first dimension")

/-- Deterministic model of the matplotlib autoscaled axis limits used when
the caller gives no explicit limits: default 5 percent margins around the
data interval, the default `(0, 1)` axis for no data, and the `nonsingular`
expansion for a degenerate interval.  Only determinism and pass-through of
these values are relied on by the theorems below. -/
def autoLim (vals : List ℚ) : ℚ × ℚ :=
  match vals with
  | [] => (0, 1)
  | v :: vs =>
    let lo := vs.foldl min v
    let hi := vs.foldl max v
    if lo = hi then
      if lo = 0 then (-(1/20), 1/20)
      else (lo - 1/20 * |lo|, hi + 1/20 * |hi|)
    else
      (lo - (hi - lo) * (1/20), hi + (hi - lo) * (1/20))

/-- Embedding of `ndarray.astype(int)` on one value: truncation toward
zero. -/
def pyInt (q : ℚ) : ℤ :=
  if 0 ≤ q then ⌊q⌋ else ⌈q⌉

/-- Embedding of `np.arange(start, stop, step)` for a nonzero step: the
values `start + i * step` for `0 ≤ i < ⌈(stop - start) / step⌉`.  numpy
raises for a zero step; no theorem below relies on that branch. -/
def npArange (start stop step : ℚ) : List ℚ :=
  if step = 0 then []
  else (List.range (⌈(stop - start) / step⌉.toNat)).map
    fun i : ℕ => start + (i : ℚ) * step

/-- The arguments of `DataViewer.lineplot` that the embedded rendering
pipeline depends on.  Style-only parameters of the source (labels, figure
size, y-scale, font, line and marker sizing, seaborn style, legend
placement and scale, annotations) do not feed into any modelled output and
are omitted. -/
structure LinePlotArgs where
  df : DataFrame
  totals : Option (List ℚ) := none
  categories : Option (List String) := none
  cumulative : Bool := false
  x_lim : Option (ℚ × ℚ) := none
  y_lim : Option (ℚ × ℚ) := none
  xtick_spacing : Option ℚ := none
  ytick_spacing : Option ℚ := none
  category_colors : Option (List (String × String)) := none
  include_legend : Bool := true
  deriving DecidableEq, Repr

/-- The rendered figure: the drawn per-category series (name, y-values,
color) in draw order, the totals overlay, the resolved axis limits, the
tick positions (`yticks = none` means the matplotlib default is kept), and
the legend (labels in order and `ncol`) when included. -/
structure Figure where
  series : List (String × List ℚ × String)
  totalsSeries : Option (List ℚ)
  xlim : ℚ × ℚ
  ylim : ℚ × ℚ
  xticks : List ℚ
  yticks : Option (List ℚ)
  legend : Option (List String × ℕ)
  deriving DecidableEq, Repr

/-- The local `df` after the cumulative transform (lines 131-133): the
rebinding replaces the local name with a new cumsummed object when
`cumulative` is set. -/
def cumDf (args : LinePlotArgs) : DataFrame :=
  if args.cumulative then args.df.cumsum else args.df

/-- The local `totals` after the cumulative transform (lines 134-135). -/
def cumTotals (args : LinePlotArgs) : Option (List ℚ) :=
  if args.cumulative then args.totals.map seriesCumsum else args.totals

/-- The local `categories` after defaulting (lines 139-140): all columns of
the (possibly cumsummed) dataframe when none are given. -/
def plotCategories (args : LinePlotArgs) : List String :=
  args.categories.getD (cumDf args).columns

/-- The figure assembled after the drawing loop succeeded (lines 207-243):
resolved limits, ticks and legend. -/
def figureOf (args : LinePlotArgs)
    (series : List (String × List ℚ × String)) : Figure :=
  let xs := (cumDf args).index
  let x_lim := args.x_lim.getD (autoLim xs)
  let y_lim := args.y_lim.getD
    (autoLim ((series.map fun e => e.2.1).flatten ++ (cumTotals args).getD []))
  { series := series
    totalsSeries := cumTotals args
    xlim := x_lim
    ylim := y_lim
    xticks :=
      match args.xtick_spacing with
      | none => xs.map fun q => ((pyInt q : ℤ) : ℚ)
      | some s => npArange x_lim.1 x_lim.2 s
    yticks := args.ytick_spacing.map fun s => npArange y_lim.1 y_lim.2 s
    legend :=
      if args.include_legend then
        some (series.map (fun e => e.1) ++
            (match cumTotals args with | some _ => ["Total"] | none => []),
          (plotCategories args).length / 4 + 1)
      else none }

/-- Embedding of `DataViewer.lineplot` (data_viewer.py, lines 62-249).

The cumulative transform rebinds the local names `df` and `totals` to new
objects (`cumsum` allocates; the source contains no in-place operation), so
the result also carries the caller objects after the call: they are the
argument values themselves. -/
def lineplot (args : LinePlotArgs) :
    Except PyError (Figure × DataFrame × Option (List ℚ)) :=
  match resolveColors (plotCategories args) args.category_colors with
  | .error e => .error e
  | .ok category_colors =>
    match drawSeries (cumDf args) category_colors (cumDf args).index
        (plotCategories args) with
    | .error e => .error e
    | .ok series =>
      match checkTotals (cumDf args).index (cumTotals args) with
      | .error e => .error e
      | .ok _ => .ok (figureOf args series, args.df, args.totals)

/-- Running sums preserve length. -/
theorem cumsumFrom_length (acc : ℚ) (l : List ℚ) :
    (cumsumFrom acc l).length = l.length := by
  induction l generalizing acc with
  | nil => rfl
  | cons x xs ih => simp [cumsumFrom, ih]

/-- The pandas `cumsum` preserves the series length. -/
theorem seriesCumsum_length (l : List ℚ) :
    (seriesCumsum l).length = l.length :=
  cumsumFrom_length 0 l

/-- Closed form of the accumulator recursion: the i-th running sum is the
accumulator plus the sum of the first `i + 1` values. -/
theorem cumsumFrom_eq (acc : ℚ) (l : List ℚ) :
    cumsumFrom acc l =
      (List.range l.length).map fun i => acc + (l.take (i + 1)).sum := by
  induction l generalizing acc with
  | nil => rfl
  | cons x xs ih =>
    simp only [cumsumFrom, List.length_cons, List.range_succ_eq_map,
      List.map_cons, List.map_map]
    congr 1
    · simp
    · rw [ih (acc + x)]
      apply List.map_congr_left
      intro i _
      simp [Function.comp, List.take_succ_cons, add_assoc]

/-- A mapped association list that keeps keys: lookup commutes with the
value map. -/
theorem assocFind_map_snd {α β : Type} (f : α → β) (l : List (String × α))
    (c : String) :
    assocFind (l.map fun kv => (kv.1, f kv.2)) c = (assocFind l c).map f := by
  induction l with
  | nil => rfl
  | cons kv rest ih =>
    simp only [List.map_cons, assocFind]
    split_ifs with hkc
    · rfl
    · exact ih

/-- Column lookup commutes with the dataframe `cumsum`. -/
theorem cumsum_lookup (df : DataFrame) (c : String) :
    df.cumsum.lookup c = (df.lookup c).map seriesCumsum :=
  assocFind_map_snd seriesCumsum df.cols c

/-- The cumulative transform leaves the index unchanged. -/
theorem cumDf_index (args : LinePlotArgs) :
    (cumDf args).index = args.df.index := by
  unfold cumDf
  split <;> rfl

/-- A column absent from the caller dataframe is absent after the
cumulative transform. -/
theorem cumDf_lookup_none (args : LinePlotArgs) (c : String)
    (h : args.df.lookup c = none) : (cumDf args).lookup c = none := by
  cases hc : args.cumulative <;> simp [cumDf, hc, cumsum_lookup, h]

/-- The totals series keeps its length through the cumulative transform. -/
theorem cumTotals_some (args : LinePlotArgs) (t : List ℚ)
    (h : args.totals = some t) :
    ∃ t2, cumTotals args = some t2 ∧ t2.length = t.length := by
  cases hc : args.cumulative <;> simp [cumTotals, hc, h, seriesCumsum_length]

/-- Explicit categories pass through the defaulting step unchanged. -/
theorem plotCategories_eq_some (args : LinePlotArgs) (cats : List String)
    (h : args.categories = some cats) : plotCategories args = cats := by
  simp [plotCategories, h]

/-- A key outside the key list is not bound in the zipped dict. -/
theorem dictLookup_zip_not_mem {α : Type} (keys : List String)
    (vals : List α) (k : String) (hk : k ∉ keys) :
    dictLookup (keys.zip vals) k = none := by
  induction keys generalizing vals with
  | nil => rfl
  | cons k0 ks ih =>
    cases vals with
    | nil => rfl
    | cons v vs =>
      have hk0 : k ∉ ks := fun hmem => hk (List.mem_cons_of_mem _ hmem)
      have hne : k0 ≠ k := fun he => hk (he ▸ List.mem_cons_self _ _)
      show dictLookup ((k0, v) :: ks.zip vs) k = none
      unfold dictLookup
      rw [ih vs hk0]
      show (if k0 = k then some v else none) = none
      rw [if_neg hne]

/-- In a dict zipping distinct keys with values in order, the i-th key is
bound to the i-th value. -/
theorem dictLookup_zip_nodup {α : Type} (keys : List String)
    (vals : List α) (hn : keys.Nodup) (i : ℕ) (hi : i < keys.length)
    (hv : i < vals.length) :
    dictLookup (keys.zip vals) (keys.get ⟨i, hi⟩) =
      some (vals.get ⟨i, hv⟩) := by
  induction keys generalizing vals i with
  | nil => exact absurd hi (Nat.not_lt_zero i)
  | cons k0 ks ih =>
    cases vals with
    | nil => exact absurd hv (Nat.not_lt_zero i)
    | cons v vs =>
      rw [List.nodup_cons] at hn
      cases i with
      | zero =>
        show dictLookup ((k0, v) :: ks.zip vs) k0 = some v
        unfold dictLookup
        rw [dictLookup_zip_not_mem ks vs k0 hn.1]
        show (if k0 = k0 then some v else none) = some v
        rw [if_pos rfl]
      | succ j =>
        have hj : j < ks.length := Nat.lt_of_succ_lt_succ hi
        have hjv : j < vs.length := Nat.lt_of_succ_lt_succ hv
        show dictLookup ((k0, v) :: ks.zip vs) (ks.get ⟨j, hj⟩) =
          some (vs.get ⟨j, hjv⟩)
        unfold dictLookup
        rw [ih vs hn.2 j hj hjv]

/-- Success characterisation of the drawing loop: the drawn series carry the
category names in order, and every drawn entry holds its column values, its
dict color, and a y-length equal to the x-length. -/
theorem drawSeries_ok (df : DataFrame) (cc : List (String × String))
    (xs : List ℚ) (cats : List String)
    (l : List (String × List ℚ × String))
    (h : drawSeries df cc xs cats = .ok l) :
    l.map Prod.fst = cats ∧
    ∀ e ∈ l, df.lookup e.1 = some e.2.1 ∧ dictLookup cc e.1 = some e.2.2 ∧
      e.2.1.length = xs.length := by
  induction cats generalizing l with
  | nil =>
    unfold drawSeries at h
    injection h with h1
    subst h1
    exact ⟨rfl, by simp⟩
  | cons c cs ih =>
    unfold drawSeries at h
    split at h
    · exact absurd h (by simp)
    · rename_i ys hys
      split at h
      · exact absurd h (by simp)
      · rename_i col hcol
        split at h
        · rename_i hlen
          split at h
          · exact absurd h (by simp)
          · rename_i rest hrest
            injection h with h1
            subst h1
            obtain ⟨ihm, ihall⟩ := ih rest hrest
            refine ⟨by simp [ihm], ?_⟩
            intro e he
            rw [List.mem_cons] at he
            rcases he with rfl | he
            · exact ⟨hys, hcol, hlen⟩
            · exact ihall e he
        · exact absurd h (by simp)

/-- Success characterisation of the totals overlay length validation. -/
theorem checkTotals_ok (xs : List ℚ) (t : List ℚ)
    (h : checkTotals xs (some t) = .ok ()) : t.length = xs.length := by
  by_cases hlen : t.length = xs.length
  · exact hlen
  · simp only [checkTotals] at h
    rw [if_neg hlen] at h
    exact absurd h (by simp)

/-- Inversion of a successful `lineplot` call into its pipeline stages. -/
theorem lineplot_ok_inv (args : LinePlotArgs) (fig : Figure)
    (df0 : DataFrame) (t0 : Option (List ℚ))
    (h : lineplot args = .ok (fig, df0, t0)) :
    ∃ cc, resolveColors (plotCategories args) args.category_colors = .ok cc ∧
      drawSeries (cumDf args) cc (cumDf args).index (plotCategories args) =
        .ok fig.series ∧
      checkTotals (cumDf args).index (cumTotals args) = .ok () ∧
      fig = figureOf args fig.series ∧ df0 = args.df ∧ t0 = args.totals := by
  unfold lineplot at h
  split at h
  · exact absurd h (by simp)
  · rename_i cc hcc
    split at h
    · exact absurd h (by simp)
    · rename_i series hds
      split at h
      · exact absurd h (by simp)
      · rename_i u hct
        cases u
        injection h with h1
        rw [Prod.mk.injEq, Prod.mk.injEq] at h1
        obtain ⟨hfig, hdf, ht⟩ := h1
        subst hfig
        exact ⟨cc, hcc, hds, hct, rfl, hdf.symm, ht.symm⟩

/-- Projection: the assembled figure carries the drawn series. -/
theorem figureOf_series (args : LinePlotArgs)
    (s : List (String × List ℚ × String)) : (figureOf args s).series = s := rfl

/-- Projection: the assembled figure carries the transformed totals. -/
theorem figureOf_totalsSeries (args : LinePlotArgs)
    (s : List (String × List ℚ × String)) :
    (figureOf args s).totalsSeries = cumTotals args := rfl

/-- Projection: the resolved x limits. -/
theorem figureOf_xlim (args : LinePlotArgs)
    (s : List (String × List ℚ × String)) :
    (figureOf args s).xlim = args.x_lim.getD (autoLim (cumDf args).index) :=
  rfl

/-- Projection: the resolved y limits. -/
theorem figureOf_ylim (args : LinePlotArgs)
    (s : List (String × List ℚ × String)) :
    (figureOf args s).ylim = args.y_lim.getD
      (autoLim ((s.map fun e => e.2.1).flatten ++ (cumTotals args).getD [])) :=
  rfl

/-- Projection: default x ticks are the index cast to integers. -/
theorem figureOf_xticks_none (args : LinePlotArgs)
    (s : List (String × List ℚ × String)) (h : args.xtick_spacing = none) :
    (figureOf args s).xticks =
      (cumDf args).index.map fun q => ((pyInt q : ℤ) : ℚ) := by
  unfold figureOf
  rw [h]

/-- Projection: explicit x tick spacing switches to an arange over the
resolved x limits. -/
theorem figureOf_xticks_some (args : LinePlotArgs)
    (s : List (String × List ℚ × String)) (sp : ℚ)
    (h : args.xtick_spacing = some sp) :
    (figureOf args s).xticks =
      npArange (figureOf args s).xlim.1 (figureOf args s).xlim.2 sp := by
  unfold figureOf
  rw [h]

/-- Projection: no explicit y tick spacing keeps the library default. -/
theorem figureOf_yticks (args : LinePlotArgs)
    (s : List (String × List ℚ × String)) :
    (figureOf args s).yticks =
      args.ytick_spacing.map fun sp =>
        npArange (figureOf args s).ylim.1 (figureOf args s).ylim.2 sp := rfl

/-- Projection: the legend contents when the legend is included. -/
theorem figureOf_legend (args : LinePlotArgs)
    (s : List (String × List ℚ × String)) (h : args.include_legend = true) :
    (figureOf args s).legend =
      some (s.map (fun e => e.1) ++
          (match cumTotals args with | some _ => ["Total"] | none => []),
        (plotCategories args).length / 4 + 1) := by
  unfold figureOf
  rw [h]
  simp

/-- The i-th arange value is `start + i * step`. -/
theorem npArange_get (a b s : ℚ) (hs : s ≠ 0) (i : ℕ)
    (hi : i < (npArange a b s).length) :
    (npArange a b s).get ⟨i, hi⟩ = a + i * s := by
  have he : npArange a b s = (List.range (⌈(b - a) / s⌉.toNat)).map
      (fun j : ℕ => a + (j : ℚ) * s) := by
    unfold npArange
    rw [if_neg hs]
  rw [List.get_of_eq he]
  simp [List.get_eq_getElem]

/-- With a positive step, every arange value lies in `[start, stop)`. -/
theorem npArange_mem_bounds (a b s : ℚ) (hs : 0 < s) (t : ℚ)
    (ht : t ∈ npArange a b s) : a ≤ t ∧ t < b := by
  unfold npArange at ht
  rw [if_neg (ne_of_gt hs)] at ht
  rw [List.mem_map] at ht
  obtain ⟨i, hi, rfl⟩ := ht
  rw [List.mem_range] at hi
  constructor
  · have hnn : (0 : ℚ) ≤ i * s := mul_nonneg (by positivity) hs.le
    linarith
  · have hiz : (i : ℤ) < ⌈(b - a) / s⌉ := Int.lt_toNat.mp hi
    have hiq : (i : ℚ) + 1 ≤ (⌈(b - a) / s⌉ : ℚ) := by exact_mod_cast hiz
    have hceil : ((⌈(b - a) / s⌉ : ℚ)) < (b - a) / s + 1 :=
      Int.ceil_lt_add_one _
    have hlt : (i : ℚ) < (b - a) / s := by linarith
    have hm := mul_lt_mul_of_pos_right hlt hs
    rw [div_mul_cancel₀ _ (ne_of_gt hs)] at hm
    linarith

/-- C7: the cumulative transform inside `lineplot` is a value transform
only: after a successful call the caller dataframe and totals series are
the unchanged argument values, even when `cumulative` is true. -/
theorem lineplot_preserves_caller (args : LinePlotArgs) (fig : Figure)
    (df0 : DataFrame) (t0 : Option (List ℚ))
    (h : lineplot args = .ok (fig, df0, t0)) :
    df0 = args.df ∧ t0 = args.totals := by
  obtain ⟨cc, hcc, hds, hct, hfig, hdf, ht⟩ := lineplot_ok_inv args fig df0 t0 h
  exact ⟨hdf, ht⟩

/-- The concrete table of the C4 example: columns `A = [1, 2, 3]` and
`B = [0, 1, 1]` over x-keys `[2020, 2021, 2022]`. -/
def c4Df : DataFrame :=
  ⟨[2020, 2021, 2022], [("A", [1, 2, 3]), ("B", [0, 1, 1])]⟩

/-- C4: with `cumulative = true`, every drawn category series is the
running sum of its input column and the drawn totals series is the running
sum of the input totals; `seriesCumsum` really is the running sum (the i-th
value is the sum of the first `i + 1` inputs); and for the table `c4Df` the
drawn series are `A = [1, 3, 6]` and `B = [0, 1, 2]`. -/
theorem lineplot_cumulative_transform :
    (∀ (args : LinePlotArgs) (fig : Figure) (df0 : DataFrame)
        (t0 : Option (List ℚ)), args.cumulative = true →
      lineplot args = .ok (fig, df0, t0) →
      (∀ e ∈ fig.series, ∃ ys0, args.df.lookup e.1 = some ys0 ∧
          e.2.1 = seriesCumsum ys0) ∧
      ∀ t, args.totals = some t →
        fig.totalsSeries = some (seriesCumsum t)) ∧
    (∀ l : List ℚ, seriesCumsum l =
      (List.range l.length).map fun i => (l.take (i + 1)).sum) ∧
    (lineplot { df := c4Df, cumulative := true }).map (fun r => r.1.series) =
      .ok [("A", [1, 3, 6], "#4C72B0"), ("B", [0, 1, 2], "#DD8452")] := by
  refine ⟨?_, ?_, ?_⟩
  · intro args fig df0 t0 hcum h
    obtain ⟨cc, hcc, hds, hct, hfig, hdf, ht⟩ := lineplot_ok_inv args fig df0 t0 h
    obtain ⟨hm, hall⟩ := drawSeries_ok _ _ _ _ _ hds
    constructor
    · intro e he
      have hlook := (hall e he).1
      rw [show cumDf args = args.df.cumsum by simp [cumDf, hcum]] at hlook
      rw [cumsum_lookup] at hlook
      rw [Option.map_eq_some'] at hlook
      obtain ⟨ys0, hys0, hmap⟩ := hlook
      exact ⟨ys0, hys0, hmap.symm⟩
    · intro t htot
      have h1 : fig.totalsSeries = cumTotals args := by
        conv_lhs => rw [hfig]
        rfl
      rw [h1]
      simp [cumTotals, hcum, htot]
  · intro l
    rw [seriesCumsum, cumsumFrom_eq]
    simp
  · simp [lineplot, c4Df, plotCategories, cumDf, cumTotals,
      DataFrame.cumsum, DataFrame.columns, DataFrame.lookup, assocFind,
      resolveColors, sns_color_palette, drawSeries, dictLookup, checkTotals,
      figureOf, seriesCumsum, cumsumFrom, Except.map]
    norm_num

/-- C8: with the legend included, a successful `lineplot` uses
`ncol = n / 4 + 1` columns for `n` drawn categories, the legend entries are
the category labels plus the optional Total entry, and distributing the
entries into the columns (at most `ceil(entries / ncol)` per column) puts at
most 4 entries in any column. -/
theorem lineplot_legend_ncol (args : LinePlotArgs) (fig : Figure)
    (df0 : DataFrame) (t0 : Option (List ℚ))
    (h : lineplot args = .ok (fig, df0, t0))
    (hleg : args.include_legend = true) :
    ∃ labels ncol, fig.legend = some (labels, ncol) ∧
      ncol = fig.series.length / 4 + 1 ∧
      labels.length ≤ 4 * ncol ∧
      (labels.length + ncol - 1) / ncol ≤ 4 := by
  obtain ⟨cc, hcc, hds, hct, hfig, hdf, ht⟩ := lineplot_ok_inv args fig df0 t0 h
  have hm := (drawSeries_ok _ _ _ _ _ hds).1
  have hlen : fig.series.length = (plotCategories args).length := by
    calc fig.series.length = (fig.series.map Prod.fst).length :=
        (List.length_map _ _).symm
      _ = (plotCategories args).length := by rw [hm]
  have hleg2 : fig.legend = some (fig.series.map (fun e => e.1) ++
      (match cumTotals args with | some _ => ["Total"] | none => []),
      (plotCategories args).length / 4 + 1) := by
    conv_lhs => rw [hfig]
    exact figureOf_legend args fig.series hleg
  have hlab : (fig.series.map (fun e => e.1) ++
      (match cumTotals args with | some _ => ["Total"] | none => [])).length ≤
      (plotCategories args).length + 1 := by
    rw [List.length_append, List.length_map]
    have hone : (match cumTotals args with
        | some _ => ["Total"] | none => ([] : List String)).length ≤ 1 := by
      cases cumTotals args <;> simp
    omega
  refine ⟨_, _, hleg2, by rw [hlen], ?_, ?_⟩
  · omega
  · have hc : 0 < (plotCategories args).length / 4 + 1 := Nat.succ_pos _
    rw [Nat.div_le_iff_le_mul_add_pred hc]
    omega

/-- C9: with no explicit x spacing the x ticks sit at the index keys cast
to integers; with an explicit spacing they are the arange over the resolved
x limits; the y ticks are only overridden when a y spacing is given, again
as an arange over the resolved y limits; and an arange with positive step
is evenly spaced from the lower bound (i-th value `start + i * step`) and
stays strictly below the upper bound. -/
theorem lineplot_tick_placement (args : LinePlotArgs) (fig : Figure)
    (df0 : DataFrame) (t0 : Option (List ℚ))
    (h : lineplot args = .ok (fig, df0, t0)) :
    (args.xtick_spacing = none →
      fig.xticks = args.df.index.map fun q => ((pyInt q : ℤ) : ℚ)) ∧
    (∀ s, args.xtick_spacing = some s →
      fig.xticks = npArange fig.xlim.1 fig.xlim.2 s) ∧
    (args.ytick_spacing = none → fig.yticks = none) ∧
    (∀ s, args.ytick_spacing = some s →
      fig.yticks = some (npArange fig.ylim.1 fig.ylim.2 s)) ∧
    ∀ a b s : ℚ, 0 < s →
      (∀ i (hi : i < (npArange a b s).length),
        (npArange a b s).get ⟨i, hi⟩ = a + i * s) ∧
      ∀ t ∈ npArange a b s, a ≤ t ∧ t < b := by
  obtain ⟨cc, hcc, hds, hct, hfig, hdf, ht⟩ := lineplot_ok_inv args fig df0 t0 h
  refine ⟨?_, ?_, ?_, ?_, ?_⟩
  · intro hxs
    conv_lhs => rw [hfig]
    rw [figureOf_xticks_none args fig.series hxs, cumDf_index]
  · intro s hxs
    have hx : fig.xlim = (figureOf args fig.series).xlim := by
      conv_lhs => rw [hfig]
    rw [hx]
    conv_lhs => rw [hfig]
    exact figureOf_xticks_some args fig.series s hxs
  · intro hys
    conv_lhs => rw [hfig]
    rw [figureOf_yticks, hys]
    rfl
  · intro s hys
    have hy : fig.ylim = (figureOf args fig.series).ylim := by
      conv_lhs => rw [hfig]
    rw [hy]
    conv_lhs => rw [hfig]
    rw [figureOf_yticks, hys]
    rfl
  · intro a b s hs
    exact ⟨npArange_get a b s (ne_of_gt hs), npArange_mem_bounds a b s hs⟩

/-- C5: a successful `lineplot` is impossible on malformed input: when the
explicit category list names a column absent from the table, or when the
totals series length differs from the length of the x index, the call
raises (returns an error and no figure); nothing is truncated or padded. -/
theorem lineplot_malformed_inputs (args : LinePlotArgs) :
    (∀ cats c, args.categories = some cats → c ∈ cats →
      args.df.lookup c = none → ∃ e, lineplot args = .error e) ∧
    (∀ t, args.totals = some t → t.length ≠ args.df.index.length →
      ∃ e, lineplot args = .error e) := by
  constructor
  · intro cats c hcats hc hlook
    cases hres : lineplot args with
    | error e => exact ⟨e, rfl⟩
    | ok r =>
      obtain ⟨fig, df0, t0⟩ := r
      obtain ⟨cc, hcc, hds, hct, hfig, hdf, ht⟩ :=
        lineplot_ok_inv args fig df0 t0 hres
      obtain ⟨hm, hall⟩ := drawSeries_ok _ _ _ _ _ hds
      rw [plotCategories_eq_some args cats hcats] at hm
      have hcmem : c ∈ fig.series.map Prod.fst := hm ▸ hc
      rw [List.mem_map] at hcmem
      obtain ⟨e0, he0, hfst⟩ := hcmem
      have hsome := (hall e0 he0).1
      rw [hfst, cumDf_lookup_none args c hlook] at hsome
      exact absurd hsome (by simp)
  · intro t htot hlen
    cases hres : lineplot args with
    | error e => exact ⟨e, rfl⟩
    | ok r =>
      obtain ⟨fig, df0, t0⟩ := r
      obtain ⟨cc, hcc, hds, hct, hfig, hdf, ht⟩ :=
        lineplot_ok_inv args fig df0 t0 hres
      obtain ⟨t2, ht2, hlen2⟩ := cumTotals_some args t htot
      rw [ht2] at hct
      have hck := checkTotals_ok _ _ hct
      rw [cumDf_index] at hck
      exact absurd (hlen2.symm.trans hck) hlen

/-- C6: `lineplot` is deterministic: two successful calls on identical
arguments yield identical drawn series (hence identical per-category
colors), identical legends and identical computed y limits; and when no
explicit color map is given, the i-th drawn category receives the i-th
color of the fixed seaborn palette. -/
theorem lineplot_color_determinism (args : LinePlotArgs)
    (r1 r2 : Figure × DataFrame × Option (List ℚ))
    (h1 : lineplot args = .ok r1) (h2 : lineplot args = .ok r2) :
    (r1.1.series = r2.1.series ∧ r1.1.legend = r2.1.legend ∧
      r1.1.ylim = r2.1.ylim) ∧
    (args.category_colors = none → (plotCategories args).Nodup →
      ∀ i (hi : i < r1.1.series.length) (hp : i < sns_color_palette.length),
        (r1.1.series.get ⟨i, hi⟩).2.2 = sns_color_palette.get ⟨i, hp⟩) := by
  have heq : r1 = r2 := Except.ok.inj (h1.symm.trans h2)
  refine ⟨⟨by rw [heq], by rw [heq], by rw [heq]⟩, ?_⟩
  intro hnone hnodup i hi hp
  obtain ⟨fig, df0, t0⟩ := r1
  obtain ⟨cc, hcc, hds, hct, hfig, hdf, ht⟩ :=
    lineplot_ok_inv args fig df0 t0 h1
  rw [hnone] at hcc
  simp only [resolveColors] at hcc
  split_ifs at hcc with hle
  injection hcc with hcc1
  subst hcc1
  obtain ⟨hm, hall⟩ := drawSeries_ok _ _ _ _ _ hds
  have hi2 : i < (fig.series.map Prod.fst).length := by
    rw [List.length_map]
    exact hi
  have hcats_i : i < (plotCategories args).length := by
    rw [← hm]
    exact hi2
  have hfst : (fig.series.get ⟨i, hi⟩).1 =
      (plotCategories args).get ⟨i, hcats_i⟩ := by
    have hg := List.get_of_eq hm ⟨i, hi2⟩
    simp only [List.get_eq_getElem, List.getElem_map] at hg ⊢
    exact hg
  have hmem := List.get_mem fig.series i hi
  have hcolor := (hall _ hmem).2.1
  rw [hfst, dictLookup_zip_nodup (plotCategories args) sns_color_palette
    hnodup i hcats_i hp] at hcolor
  exact (Option.some.inj hcolor).symm

/-- A small dataframe used to instantiate the rendering theorems. -/
def exDf : DataFrame := ⟨[0], [("A", [0]), ("B", [0]), ("C", [0])]⟩

/-- Rendering arguments with an explicit category list, defaults
otherwise. -/
def exArgs : LinePlotArgs :=
  { df := exDf, categories := some ["A", "B", "C"] }

/-- Cumulative rendering arguments with a totals series. -/
def exArgsCum : LinePlotArgs :=
  { df := exDf, totals := some [0], cumulative := true }

/-- The series drawn for `exArgs`. -/
def exSeries : List (String × List ℚ × String) :=
  [("A", [0], "#4C72B0"), ("B", [0], "#DD8452"), ("C", [0], "#55A868")]

/-- The series drawn for `exArgsCum`. -/
def exSeriesCum : List (String × List ℚ × String) :=
  [("A", seriesCumsum [0], "#4C72B0"), ("B", seriesCumsum [0], "#DD8452"),
   ("C", seriesCumsum [0], "#55A868")]

/-- Concrete evaluation of `lineplot` on `exArgs`. -/
theorem exArgs_eval :
    lineplot exArgs = .ok (figureOf exArgs exSeries, exDf, none) := by
  simp [lineplot, exArgs, exDf, exSeries, plotCategories, cumDf, cumTotals,
    DataFrame.columns, DataFrame.lookup, assocFind, resolveColors,
    sns_color_palette, drawSeries, dictLookup, checkTotals,
    List.zip_cons_cons]

/-- Concrete evaluation of `lineplot` on `exArgsCum`. -/
theorem exArgsCum_eval :
    lineplot exArgsCum = .ok (figureOf exArgsCum exSeriesCum, exDf, some [0]) := by
  simp [lineplot, exArgsCum, exDf, exSeriesCum, plotCategories, cumDf,
    cumTotals, DataFrame.cumsum, DataFrame.columns, DataFrame.lookup,
    assocFind, resolveColors, sns_color_palette, drawSeries, dictLookup,
    checkTotals, seriesCumsum_length, List.zip_cons_cons]

/-- Witness for C4 at the cumulative arguments `exArgsCum`. -/
theorem lineplot_cumulative_transform_witness :
    exArgsCum.cumulative = true ∧
    lineplot exArgsCum = .ok (figureOf exArgsCum exSeriesCum, exDf, some [0]) ∧
    ((∀ e ∈ (figureOf exArgsCum exSeriesCum).series, ∃ ys0,
        exArgsCum.df.lookup e.1 = some ys0 ∧ e.2.1 = seriesCumsum ys0) ∧
      ∀ t, exArgsCum.totals = some t →
        (figureOf exArgsCum exSeriesCum).totalsSeries =
          some (seriesCumsum t)) :=
  ⟨rfl, exArgsCum_eval,
    lineplot_cumulative_transform.1 exArgsCum _ exDf (some [0]) rfl
      exArgsCum_eval⟩

/-- Witness for C5 at arguments naming an absent column and a mismatched
totals length. -/
def c5Args : LinePlotArgs :=
  { df := ⟨[0], [("a", [0])]⟩, categories := some ["b"],
    totals := some [0, 0] }

/-- Witness for C5, continued: both malformed-input conditions hold for
`c5Args` and the call errors. -/
theorem lineplot_malformed_inputs_witness :
    (c5Args.categories = some ["b"] ∧ "b" ∈ ["b"] ∧
      c5Args.df.lookup "b" = none ∧ ∃ e, lineplot c5Args = .error e) ∧
    (c5Args.totals = some [0, 0] ∧
      ([0, 0] : List ℚ).length ≠ c5Args.df.index.length ∧
      ∃ e, lineplot c5Args = .error e) :=
  ⟨⟨rfl, by simp, by simp [c5Args, DataFrame.lookup, assocFind],
      (lineplot_malformed_inputs c5Args).1 ["b"] "b" rfl (by simp)
        (by simp [c5Args, DataFrame.lookup, assocFind])⟩,
    rfl, by simp [c5Args],
    (lineplot_malformed_inputs c5Args).2 [0, 0] rfl (by simp [c5Args])⟩

/-- Witness for C6 at `exArgs` (same call twice; palette colors). -/
theorem lineplot_color_determinism_witness :
    lineplot exArgs = .ok (figureOf exArgs exSeries, exDf, none) ∧
    exArgs.category_colors = none ∧ (plotCategories exArgs).Nodup ∧
    (((figureOf exArgs exSeries).series = (figureOf exArgs exSeries).series ∧
        (figureOf exArgs exSeries).legend = (figureOf exArgs exSeries).legend ∧
        (figureOf exArgs exSeries).ylim = (figureOf exArgs exSeries).ylim) ∧
      (exArgs.category_colors = none → (plotCategories exArgs).Nodup →
        ∀ i (hi : i < (figureOf exArgs exSeries).series.length)
          (hp : i < sns_color_palette.length),
          ((figureOf exArgs exSeries).series.get ⟨i, hi⟩).2.2 =
            sns_color_palette.get ⟨i, hp⟩)) :=
  ⟨exArgs_eval, rfl, by decide,
    lineplot_color_determinism exArgs _ _ exArgs_eval exArgs_eval⟩

/-- Witness for C7 at the cumulative arguments `exArgsCum`. -/
theorem lineplot_preserves_caller_witness :
    lineplot exArgsCum = .ok (figureOf exArgsCum exSeriesCum, exDf, some [0]) ∧
    exDf = exArgsCum.df ∧ some [0] = exArgsCum.totals :=
  ⟨exArgsCum_eval,
    lineplot_preserves_caller exArgsCum _ exDf (some [0]) exArgsCum_eval⟩

/-- Witness for C8 at `exArgs`. -/
theorem lineplot_legend_ncol_witness :
    lineplot exArgs = .ok (figureOf exArgs exSeries, exDf, none) ∧
    exArgs.include_legend = true ∧
    ∃ labels ncol, (figureOf exArgs exSeries).legend = some (labels, ncol) ∧
      ncol = (figureOf exArgs exSeries).series.length / 4 + 1 ∧
      labels.length ≤ 4 * ncol ∧
      (labels.length + ncol - 1) / ncol ≤ 4 :=
  ⟨exArgs_eval, rfl, lineplot_legend_ncol exArgs _ exDf none exArgs_eval rfl⟩

/-- Witness for C9 at `exArgs`. -/
theorem lineplot_tick_placement_witness :
    lineplot exArgs = .ok (figureOf exArgs exSeries, exDf, none) ∧
    ((exArgs.xtick_spacing = none →
        (figureOf exArgs exSeries).xticks =
          exArgs.df.index.map fun q => ((pyInt q : ℤ) : ℚ)) ∧
      (∀ s, exArgs.xtick_spacing = some s →
        (figureOf exArgs exSeries).xticks =
          npArange (figureOf exArgs exSeries).xlim.1
            (figureOf exArgs exSeries).xlim.2 s) ∧
      (exArgs.ytick_spacing = none →
        (figureOf exArgs exSeries).yticks = none) ∧
      (∀ s, exArgs.ytick_spacing = some s →
        (figureOf exArgs exSeries).yticks =
          some (npArange (figureOf exArgs exSeries).ylim.1
            (figureOf exArgs exSeries).ylim.2 s)) ∧
      ∀ a b s : ℚ, 0 < s →
        (∀ i (hi : i < (npArange a b s).length),
          (npArange a b s).get ⟨i, hi⟩ = a + i * s) ∧
        ∀ t ∈ npArange a b s, a ≤ t ∧ t < b) :=
  ⟨exArgs_eval, lineplot_tick_placement exArgs _ exDf none exArgs_eval⟩

/-- Embedding of the pandas column selection `df[columns]` with a list
argument: raises a `KeyError` when any requested column is absent, else
returns the new restricted dataframe. -/
def selectColumns (df : DataFrame) (cols : List String) :
    Except PyError DataFrame :=
  if cols.all (fun c => (df.lookup c).isSome) then
    .ok ⟨df.index, cols.map fun c => (c, (df.lookup c).getD [])⟩
  else
    .error (.keyError "not in index")

/-- Embedding of `DataViewer.write` (data_viewer.py, lines 34-60) for a
given `data_key` (the `data_key = None` branch shows a widget asking the
user for one and is outside the claims).  The result is the dataframe
passed to the final `st.write`: `none` means only the not-found message was
written.  The source computes `shown_df = data[data_key][columns]` when
`columns` is given, but then displays `data[data_key]`. -/
def write (data : List (String × DataFrame)) (data_key : String)
    (columns : Option (List String)) : Except PyError (Option DataFrame) :=
  match assocFind data data_key with
  | none => .ok none
  | some df =>
    match columns with
    | none => .ok (some df)
    | some cols =>
      match selectColumns df cols with
      | .error e => .error e
      | .ok _shown_df => .ok (some df)

/-- C10 counterexample: `columns` is not inert for every list — a list
naming an absent column makes the pandas selection raise, so the two calls
below (differing only in `columns`) do not display the same dataframe: one
raises and displays nothing. -/
theorem write_columns_counterexample :
    write [("k", ⟨[0], [("a", [0])]⟩)] "k" (some ["b"]) =
      .error (.keyError "not in index") ∧
    write [("k", ⟨[0], [("a", [0])]⟩)] "k" none =
      .ok (some ⟨[0], [("a", [0])]⟩) ∧
    write [("k", ⟨[0], [("a", [0])]⟩)] "k" (some ["b"]) ≠
      write [("k", ⟨[0], [("a", [0])]⟩)] "k" none := by
  refine ⟨?_, ?_, ?_⟩ <;>
    simp [write, selectColumns, DataFrame.lookup, assocFind]

/-- C10 amended: for a data key present in the dict and a `columns` list
whose names all occur in that dataframe, the full dataframe is displayed —
the `columns` argument has no effect (the restricted `shown_df` is computed
but never displayed), and a call with such a `columns` displays the same
dataframe as a call without one.  (When `columns` names an absent column
the selection itself raises and nothing is displayed.) -/
theorem write_columns_no_effect (data : List (String × DataFrame))
    (key : String) (df : DataFrame) (cols : List String)
    (hk : assocFind data key = some df)
    (hc : cols.all (fun c => (df.lookup c).isSome) = true) :
    write data key (some cols) = .ok (some df) ∧
    write data key none = .ok (some df) := by
  constructor
  · unfold write
    rw [hk]
    show (match selectColumns df cols with
      | .error e => Except.error e
      | .ok _shown_df => Except.ok (some df)) = .ok (some df)
    unfold selectColumns
    rw [if_pos hc]
  · unfold write
    rw [hk]

/-- Witness for the amended C10 at a one-column dataframe. -/
theorem write_columns_no_effect_witness :
    assocFind [("k", (⟨[0], [("a", [0])]⟩ : DataFrame))] "k" =
      some ⟨[0], [("a", [0])]⟩ ∧
    (["a"].all fun c =>
      ((⟨[0], [("a", [0])]⟩ : DataFrame).lookup c).isSome) = true ∧
    (write [("k", ⟨[0], [("a", [0])]⟩)] "k" (some ["a"]) =
        .ok (some ⟨[0], [("a", [0])]⟩) ∧
      write [("k", ⟨[0], [("a", [0])]⟩)] "k" none =
        .ok (some ⟨[0], [("a", [0])]⟩)) :=
  ⟨by simp [assocFind], by simp [DataFrame.lookup, assocFind],
    write_columns_no_effect [("k", ⟨[0], [("a", [0])]⟩)] "k"
      ⟨[0], [("a", [0])]⟩ ["a"] (by simp [assocFind])
      (by simp [DataFrame.lookup, assocFind])⟩
